import Mathlib

/-
Verification of the kvstore-benchmarker metrics/runner core.

Modelling conventions (shallow embedding of the Go sources):

* Go `float64` values (latencies, rates, timestamps in seconds) are modelled
  as exact rationals `ℚ`.  A float division whose denominator can be zero on
  the branch where it executes is modelled by `fdiv`, which returns `none`
  for a zero denominator (the Go result there is NaN or ±Inf, a non-finite
  value); a division that is guarded by a non-zero test in the source stays
  ordinary `ℚ` division.
* Go `int64` / `int` counters become `Int` / `Nat`; overflow is irrelevant
  to the properties below.
* Stateful methods become pure functions from the receiver to an updated
  receiver (or, for a read-only method, to a `result × post-state` pair so
  that absence of mutation is a provable fact rather than an assumption).
* `sort.Float64s` sorts a list of rationals; it is modelled by insertion
  sort, which produces the same sorted output as any sorting algorithm on a
  totally ordered type.
* Timestamps are rationals on a single monotonic time line (seconds);
  durations are differences of timestamps.  Elapsed nanosecond counts are
  naturals (Go's monotonic `time.Since` is non-negative).
-/

namespace KVBench

/-- Division of Go float64 values where the denominator may be zero:
`none` stands for the non-finite float (NaN or ±Inf) that Go produces. -/
def fdiv (a b : ℚ) : Option ℚ :=
  if b = 0 then none else some (a / b)

/-- Truncation of a non-negative-or-negative rational toward zero, the
semantics of Go's `int(x)` conversion from `float64`. -/
def truncToInt (q : ℚ) : Int :=
  if 0 ≤ q then ⌊q⌋ else -⌊-q⌋

/-- BenchmarkResult (collector.go:15-20).  The `error` field only matters
through nil-ness, modelled as `isError`; the timestamp plays no role in any
claim and is omitted from the record. -/
structure BenchmarkResult where
  method : String
  latencyMs : ℚ
  isError : Bool
  deriving Repr, DecidableEq

/-- Metrics (collector.go:22-33).  `startTime` is referenced by
`WriteAggregatedMetricsToCSV` (collector.go:410) but never assigned in the
sources, so it carries Go's zero `time.Time`, placed at instant 0 of the
model's time line. -/
structure Metrics where
  method : String
  count : Int
  errorCount : Int
  totalLatency : ℚ
  minLatency : ℚ
  maxLatency : ℚ
  latencies : List ℚ
  maxLatencies : Nat
  startTime : ℚ
  deriving Repr, DecidableEq

/-- NewMetrics (collector.go:36-44).  `float64(^uint(0) >> 1)` rounds
`2^63 - 1` to the float64 value `2^63`. -/
def NewMetrics (method : String) : Metrics :=
  { method := method
    count := 0
    errorCount := 0
    totalLatency := 0
    minLatency := (9223372036854775808 : ℚ)
    maxLatency := 0
    latencies := []
    maxLatencies := 10000
    startTime := 0 }

/-- SetMaxLatencies (collector.go:47-51). -/
def Metrics.SetMaxLatencies (m : Metrics) (max : Nat) : Metrics :=
  { m with maxLatencies := max }

/-- AddResult (collector.go:54-79). -/
def Metrics.AddResult (m : Metrics) (result : BenchmarkResult) : Metrics :=
  let m1 := { m with count := m.count + 1 }
  if result.isError then
    { m1 with errorCount := m1.errorCount + 1 }
  else
    let m2 := { m1 with
      totalLatency := m1.totalLatency + result.latencyMs
      latencies := m1.latencies ++ [result.latencyMs] }
    let m3 :=
      if m2.maxLatencies < m2.latencies.length then
        { m2 with latencies := m2.latencies.drop (m2.latencies.length - m2.maxLatencies) }
      else m2
    let m4 :=
      if result.latencyMs < m3.minLatency then
        { m3 with minLatency := result.latencyMs }
      else m3
    if m4.maxLatency < result.latencyMs then
      { m4 with maxLatency := result.latencyMs }
    else m4

theorem AddResult_count (m : Metrics) (r : BenchmarkResult) :
    (m.AddResult r).count = m.count + 1 := by
  simp only [Metrics.AddResult]
  split_ifs <;> rfl

theorem AddResult_errorCount (m : Metrics) (r : BenchmarkResult) :
    (m.AddResult r).errorCount = m.errorCount + (if r.isError then 1 else 0) := by
  simp only [Metrics.AddResult]
  split_ifs <;> simp

theorem AddResult_totalLatency (m : Metrics) (r : BenchmarkResult) :
    (m.AddResult r).totalLatency
      = m.totalLatency + (if r.isError then 0 else r.latencyMs) := by
  simp only [Metrics.AddResult]
  split_ifs <;> simp

theorem AddResult_maxLatencies (m : Metrics) (r : BenchmarkResult) :
    (m.AddResult r).maxLatencies = m.maxLatencies := by
  simp only [Metrics.AddResult]
  split_ifs <;> rfl

theorem foldl_AddResult_count (rs : List BenchmarkResult) (m : Metrics) :
    (rs.foldl Metrics.AddResult m).count = m.count + rs.length := by
  induction rs generalizing m with
  | nil => simp
  | cons r rs ih =>
    simp only [List.foldl_cons, List.length_cons, ih, AddResult_count]
    push_cast
    ring

theorem foldl_AddResult_errorCount (rs : List BenchmarkResult) (m : Metrics) :
    (rs.foldl Metrics.AddResult m).errorCount
      = m.errorCount + ((rs.filter (fun r => r.isError)).length : Int) := by
  induction rs generalizing m with
  | nil => simp
  | cons r rs ih =>
    cases hr : r.isError <;>
      simp [List.filter_cons, hr, ih, AddResult_errorCount] <;>
      push_cast <;> ring

theorem foldl_AddResult_totalLatency (rs : List BenchmarkResult) (m : Metrics) :
    (rs.foldl Metrics.AddResult m).totalLatency
      = m.totalLatency + ((rs.filter (fun r => !r.isError)).map (fun r => r.latencyMs)).sum := by
  induction rs generalizing m with
  | nil => simp
  | cons r rs ih =>
    cases hr : r.isError <;>
      simp [List.filter_cons, hr, ih, AddResult_totalLatency] <;> ring

theorem length_filter_isError_add (rs : List BenchmarkResult) :
    (rs.filter (fun r => !r.isError)).length + (rs.filter (fun r => r.isError)).length
      = rs.length := by
  induction rs with
  | nil => rfl
  | cons r rs ih =>
    cases hr : r.isError <;> simp [List.filter_cons, hr] <;> omega

/-- C1: for every sequence of ingested results for one operation kind with
`k` successes and `e` failures, the metrics built by folding `AddResult`
over the sequence satisfy `count = k + e`, `errorCount = e`, and
`totalLatency` is the sum of the `k` successful latencies only; moreover
`0 ≤ errorCount ≤ count` is preserved by every single `AddResult` call. -/
theorem aggregator_count_invariant :
    (∀ (s : String) (rs : List BenchmarkResult),
        (rs.foldl Metrics.AddResult (NewMetrics s)).count
          = ((rs.filter (fun r => !r.isError)).length : Int)
            + ((rs.filter (fun r => r.isError)).length : Int)
      ∧ (rs.foldl Metrics.AddResult (NewMetrics s)).errorCount
          = ((rs.filter (fun r => r.isError)).length : Int)
      ∧ (rs.foldl Metrics.AddResult (NewMetrics s)).totalLatency
          = ((rs.filter (fun r => !r.isError)).map (fun r => r.latencyMs)).sum)
  ∧ (∀ (m : Metrics) (r : BenchmarkResult),
        0 ≤ m.errorCount → m.errorCount ≤ m.count →
        0 ≤ (m.AddResult r).errorCount
          ∧ (m.AddResult r).errorCount ≤ (m.AddResult r).count) := by
  constructor
  · intro s rs
    refine ⟨?_, ?_, ?_⟩
    · rw [foldl_AddResult_count]
      have h := length_filter_isError_add rs
      simp [NewMetrics]
      omega
    · rw [foldl_AddResult_errorCount]; simp [NewMetrics]
    · rw [foldl_AddResult_totalLatency]; simp [NewMetrics]
  · intro m r h0 hle
    rw [AddResult_errorCount, AddResult_count]
    constructor
    · split_ifs <;> omega
    · split_ifs <;> omega

/-- C1 witness: the preservation part applied to a freshly created metrics
instance and one successful result. -/
theorem aggregator_count_invariant_witness :
    0 ≤ ((NewMetrics "Get").AddResult ⟨"Get", 2, false⟩).errorCount
  ∧ ((NewMetrics "Get").AddResult ⟨"Get", 2, false⟩).errorCount
      ≤ ((NewMetrics "Get").AddResult ⟨"Get", 2, false⟩).count :=
  aggregator_count_invariant.2 (NewMetrics "Get") ⟨"Get", 2, false⟩
    (by decide) (by decide)

theorem AddResult_latencies_success (m : Metrics) (r : BenchmarkResult)
    (hr : r.isError = false) :
    (m.AddResult r).latencies
      = (m.latencies ++ [r.latencyMs]).drop (m.latencies.length + 1 - m.maxLatencies) := by
  simp only [Metrics.AddResult, hr, Bool.false_eq_true, if_false]
  split_ifs <;> simp_all [List.length_append] <;>
    rw [Nat.sub_eq_zero_of_le (by omega)] <;> simp

theorem foldl_AddResult_latencies (rs : List BenchmarkResult) (m : Metrics)
    (hsucc : ∀ r ∈ rs, r.isError = false)
    (hlen : m.latencies.length ≤ m.maxLatencies) :
    (rs.foldl Metrics.AddResult m).latencies
      = (m.latencies ++ rs.map (fun r => r.latencyMs)).drop
          (m.latencies.length + rs.length - m.maxLatencies) := by
  induction rs generalizing m with
  | nil => simp [Nat.sub_eq_zero_of_le hlen]
  | cons r rs ih =>
    have hr : r.isError = false := hsucc r (List.mem_cons_self r rs)
    have hlen1 : (m.AddResult r).latencies.length ≤ (m.AddResult r).maxLatencies := by
      rw [AddResult_latencies_success m r hr, AddResult_maxLatencies]
      simp only [List.length_drop, List.length_append, List.length_cons, List.length_nil]
      omega
    rw [List.foldl_cons,
        ih (m.AddResult r) (fun x hx => hsucc x (List.mem_cons_of_mem r hx)) hlen1,
        AddResult_latencies_success m r hr, AddResult_maxLatencies,
        ← List.drop_append_of_le_length
          (show m.latencies.length + 1 - m.maxLatencies
              ≤ (m.latencies ++ [r.latencyMs]).length by simp),
        List.drop_drop]
    congr 1
    · simp only [List.length_drop, List.length_append, List.length_cons, List.length_nil]
      omega
    · simp

/-- C5: after ingesting more than `C` successful results into a per-kind
metrics instance with sample capacity `C`, the retained latency sample is
exactly the `C` most recently ingested latencies in ingestion order (the
oldest entries are dropped first). -/
theorem bounded_sample_fifo_eviction (s : String) (C : Nat)
    (rs : List BenchmarkResult)
    (hsucc : ∀ r ∈ rs, r.isError = false)
    (hlen : C < rs.length) :
    (rs.foldl Metrics.AddResult ((NewMetrics s).SetMaxLatencies C)).latencies
        = (rs.map (fun r => r.latencyMs)).drop (rs.length - C)
    ∧ (rs.foldl Metrics.AddResult ((NewMetrics s).SetMaxLatencies C)).latencies.length
        = C := by
  have h0 : ((NewMetrics s).SetMaxLatencies C).latencies = [] := rfl
  have hC : ((NewMetrics s).SetMaxLatencies C).maxLatencies = C := rfl
  have h1 := foldl_AddResult_latencies rs ((NewMetrics s).SetMaxLatencies C)
    hsucc (by simp [h0])
  rw [h0, hC] at h1
  simp only [List.nil_append, List.length_nil, Nat.zero_add] at h1
  refine ⟨?_, ?_⟩
  · rw [h1]
  · rw [h1, List.length_drop, List.length_map]
    omega

/-- C5 witness: with capacity 1 and two successful results of latencies 3
and 7, only the most recent latency 7 is retained. -/
theorem bounded_sample_fifo_eviction_witness :
    ([⟨"Get", 3, false⟩, ⟨"Get", 7, false⟩].foldl Metrics.AddResult
        ((NewMetrics "Get").SetMaxLatencies 1)).latencies
      = ([⟨"Get", 3, false⟩, ⟨"Get", 7, false⟩].map
          (fun r : BenchmarkResult => r.latencyMs)).drop 1
    ∧ ([⟨"Get", 3, false⟩, ⟨"Get", 7, false⟩].foldl Metrics.AddResult
        ((NewMetrics "Get").SetMaxLatencies 1)).latencies.length = 1 :=
  bounded_sample_fifo_eviction "Get" 1
    [⟨"Get", 3, false⟩, ⟨"Get", 7, false⟩]
    (by decide) (by decide)

/-- percentile (collector.go:365-389).  `n` is the Go `int` percentile
argument and `int(index)` is modelled by truncation toward zero; array
indexing is modelled with `List.getD` (every execution reaching an index
keeps it within bounds, as proved below). -/
def percentile (values : List ℚ) (n : Int) : ℚ :=
  if values.length = 0 then 0
  else
    let index : ℚ := (n : ℚ) / 100 * ((values.length : ℚ) - 1)
    if index = ((truncToInt index : Int) : ℚ) then
      values.getD (truncToInt index).toNat 0
    else
      let lowerIndex := (truncToInt index).toNat
      let upperIndex := lowerIndex + 1
      if values.length ≤ upperIndex then
        values.getD lowerIndex 0
      else
        let fraction := index - (lowerIndex : ℚ)
        values.getD lowerIndex 0
          + fraction * (values.getD upperIndex 0 - values.getD lowerIndex 0)

/-- Modelled from the spec: the value at linearly interpolated rank `rank`
of a sorted sample — with `i = ⌊rank⌋`, interpolate linearly between the
entries at indices `i` and `i + 1`, taking the entry at `i` when it is the
last index.  This is the comparison definition for the refinement claim
about `percentile`. -/
def interpAtRank (values : List ℚ) (rank : ℚ) : ℚ :=
  let i := (⌊rank⌋).toNat
  if i + 1 < values.length then
    values.getD i 0 + (rank - (i : ℚ)) * (values.getD (i + 1) 0 - values.getD i 0)
  else
    values.getD i 0

theorem truncToInt_of_nonneg (q : ℚ) (h : 0 ≤ q) : truncToInt q = ⌊q⌋ := by
  unfold truncToInt
  rw [if_pos h]

theorem percentile_core (values : List ℚ) (rank : ℚ) (hne : values ≠ [])
    (h0 : 0 ≤ rank) (h1 : rank ≤ (values.length : ℚ) - 1) :
    (if rank = ((truncToInt rank : Int) : ℚ) then
      values.getD (truncToInt rank).toNat 0
    else if values.length ≤ (truncToInt rank).toNat + 1 then
      values.getD (truncToInt rank).toNat 0
    else
      values.getD (truncToInt rank).toNat 0
        + (rank - ((truncToInt rank).toNat : ℚ))
          * (values.getD ((truncToInt rank).toNat + 1) 0
              - values.getD (truncToInt rank).toNat 0))
      = interpAtRank values rank := by
  have hL : 1 ≤ values.length := List.length_pos.mpr hne
  have htr : truncToInt rank = ⌊rank⌋ := truncToInt_of_nonneg rank h0
  have hfl0 : 0 ≤ ⌊rank⌋ := Int.floor_nonneg.mpr h0
  have hi' : ((⌊rank⌋.toNat : ℕ) : Int) = ⌊rank⌋ := Int.toNat_of_nonneg hfl0
  have hic : ((⌊rank⌋.toNat : ℕ) : ℚ) = ((⌊rank⌋ : Int) : ℚ) := by
    exact_mod_cast congrArg (fun z : Int => (z : ℚ)) hi'
  have hfl : ⌊rank⌋ ≤ (values.length : Int) - 1 := by
    have h2 : rank ≤ (((values.length : Int) - 1 : Int) : ℚ) := by push_cast; linarith
    calc ⌊rank⌋ ≤ ⌊(((values.length : Int) - 1 : Int) : ℚ)⌋ := Int.floor_le_floor h2
      _ = (values.length : Int) - 1 := Int.floor_intCast _
  rw [htr]
  unfold interpAtRank
  by_cases hint : rank = ((⌊rank⌋ : Int) : ℚ)
  · rw [if_pos hint]
    by_cases hd : (⌊rank⌋).toNat + 1 < values.length
    · rw [if_pos hd, hic, ← hint]
      ring
    · rw [if_neg hd]
  · rw [if_neg hint]
    have hupper : ¬ (values.length ≤ (⌊rank⌋).toNat + 1) := by
      intro hle
      have hfleq : ⌊rank⌋ = (values.length : Int) - 1 := by omega
      have hge : ((⌊rank⌋ : Int) : ℚ) ≤ rank := Int.floor_le rank
      have hle2 : rank ≤ ((⌊rank⌋ : Int) : ℚ) := by
        rw [hfleq]; push_cast; linarith
      exact hint (le_antisymm hle2 hge)
    rw [if_neg hupper, if_pos (by omega)]

/-- C6: the percentile of a non-empty sample at `0 ≤ p ≤ 100` is the value
at linearly interpolated rank `p/100 * (n-1)` of the sorted sample; in
particular on the sample `[1,2,3,4,5]`, `p50 = 3` and `p99 = 4.96`. -/
theorem percentile_linear_interpolation :
    (∀ (values : List ℚ) (n : Int), values ≠ [] → 0 ≤ n → n ≤ 100 →
        percentile values n
          = interpAtRank values ((n : ℚ) / 100 * ((values.length : ℚ) - 1)))
  ∧ percentile [1, 2, 3, 4, 5] 50 = 3
  ∧ percentile [1, 2, 3, 4, 5] 99 = 496 / 100 := by
  refine ⟨?_, ?_, ?_⟩
  · intro values n hne h0 h100
    have hL : 1 ≤ values.length := List.length_pos.mpr hne
    have hq0 : (0 : ℚ) ≤ (n : ℚ) / 100 * ((values.length : ℚ) - 1) := by
      have hc : (1 : ℚ) ≤ (values.length : ℚ) := by exact_mod_cast hL
      have hn : (0 : ℚ) ≤ (n : ℚ) := by exact_mod_cast h0
      have : (0 : ℚ) ≤ (n : ℚ) / 100 := by positivity
      nlinarith
    have hq1 : (n : ℚ) / 100 * ((values.length : ℚ) - 1)
        ≤ (values.length : ℚ) - 1 := by
      have hc : (1 : ℚ) ≤ (values.length : ℚ) := by exact_mod_cast hL
      have hn1 : (n : ℚ) / 100 ≤ 1 := by
        rw [div_le_one (by norm_num)]
        exact_mod_cast h100
      have hn : (0 : ℚ) ≤ (n : ℚ) := by exact_mod_cast h0
      have : (0 : ℚ) ≤ (n : ℚ) / 100 := by positivity
      nlinarith
    have hbody := percentile_core values ((n : ℚ) / 100 * ((values.length : ℚ) - 1))
      hne hq0 hq1
    rw [← hbody]
    simp only [percentile]
    rw [if_neg (by omega)]
  · norm_num [percentile, truncToInt, show ((2 : Int)).toNat = 2 from rfl]
  · norm_num [percentile, truncToInt, show ((3 : Int)).toNat = 3 from rfl]

/-- C6 witness: the interpolation characterisation applied at the two-point
sample `[1, 2]` with `p = 50`. -/
theorem percentile_linear_interpolation_witness :
    percentile [1, 2] 50
      = interpAtRank [1, 2]
          ((50 : ℚ) / 100 * ((([1, 2] : List ℚ).length : ℚ) - 1)) :=
  percentile_linear_interpolation.1 [1, 2] 50 (by decide) (by decide) (by decide)

/-- Stats (collector.go:127-139).  Fields default to Go zero values.
`avgLatency` is an `Option ℚ`: the aggregated path can divide by a zero
success count, producing a non-finite float modelled as `none`; every
finite float value `v` is `some v`, so the field's Go zero value is
`some 0`. -/
structure Stats where
  method : String := ""
  count : Int := 0
  errorCount : Int := 0
  errorRate : ℚ := 0
  avgLatency : Option ℚ := some 0
  minLatency : ℚ := 0
  maxLatency : ℚ := 0
  p50Latency : ℚ := 0
  p95Latency : ℚ := 0
  p99Latency : ℚ := 0
  totalLatency : ℚ := 0
  deriving Repr, DecidableEq

/-- GetStats (collector.go:82-124).  The method only reads the receiver —
`sort.Float64s` runs on a copy of the latencies — so its translation
returns the computed `Stats` together with the receiver state after the
call.  `sort.Float64s` is modelled by insertion sort. -/
def Metrics.GetStats (m : Metrics) : Stats × Metrics :=
  if m.count = 0 then ({}, m)
  else
    let successCount := m.count - m.errorCount
    if successCount = 0 then
      ({ method := m.method
         count := m.count
         errorCount := m.errorCount
         errorRate := 100 }, m)
    else
      let avgLatency := m.totalLatency / (successCount : ℚ)
      let errorRate := (m.errorCount : ℚ) / (m.count : ℚ) * 100
      let sortedLatencies := m.latencies.insertionSort (· ≤ ·)
      let p50 := percentile sortedLatencies 50
      let p95 := percentile sortedLatencies 95
      let p99 := percentile sortedLatencies 99
      ({ method := m.method
         count := m.count
         errorCount := m.errorCount
         errorRate := errorRate
         avgLatency := some avgLatency
         minLatency := m.minLatency
         maxLatency := m.maxLatency
         p50Latency := p50
         p95Latency := p95
         p99Latency := p99 }, m)

/-- Collector (collector.go:142-149): the per-method metrics map, modelled
as an association list in first-observation order (Go map iteration order
is unspecified; no claim proved here depends on it).  The results channel,
done channel and CSV file handles are external plumbing outside the model. -/
structure Collector where
  metrics : List (String × Metrics)
  deriving Repr, DecidableEq

/-- processResult (collector.go:234-250): get or lazily create the metrics
instance for the result's method, then add the result to it. -/
def Collector.processResult (c : Collector) (result : BenchmarkResult) : Collector :=
  match c.metrics.lookup result.method with
  | some _ =>
      { metrics := c.metrics.map fun p =>
          if p.1 = result.method then (p.1, p.2.AddResult result) else p }
  | none =>
      { metrics :=
          c.metrics ++ [(result.method, (NewMetrics result.method).AddResult result)] }

/-- Latencies gathered across all methods (collector.go:263-270). -/
def Collector.allLatencies (c : Collector) : List ℚ :=
  (c.metrics.map fun p => p.2.latencies).flatten

/-- Total operation count across all methods (collector.go:263-270). -/
def Collector.totalCount (c : Collector) : Int :=
  (c.metrics.map fun p => p.2.count).sum

/-- Total error count across all methods (collector.go:263-270). -/
def Collector.totalErrorCount (c : Collector) : Int :=
  (c.metrics.map fun p => p.2.errorCount).sum

/-- Total latency sum across all methods (collector.go:263-270). -/
def Collector.totalLatencySum (c : Collector) : ℚ :=
  (c.metrics.map fun p => p.2.totalLatency).sum

/-- GetAggregatedStats (collector.go:253-305).  Unlike `Metrics.GetStats`,
there is no guard for the all-failed state: `avgLatency` is the float
division of `totalLatency` by the success count, modelled with `fdiv`. -/
def Collector.GetAggregatedStats (c : Collector) : Stats :=
  if c.totalCount = 0 then { method := "AGGREGATED" }
  else
    let successCount := c.totalCount - c.totalErrorCount
    let errorRate := (c.totalErrorCount : ℚ) / (c.totalCount : ℚ) * 100
    let avgLatency := fdiv c.totalLatencySum (successCount : ℚ)
    let sorted := c.allLatencies.insertionSort (· ≤ ·)
    if 0 < c.allLatencies.length then
      { method := "AGGREGATED"
        count := c.totalCount
        errorCount := c.totalErrorCount
        errorRate := errorRate
        avgLatency := avgLatency
        minLatency := sorted.getD 0 0
        maxLatency := sorted.getD (sorted.length - 1) 0
        p50Latency := percentile sorted 50
        p95Latency := percentile sorted 95
        p99Latency := percentile sorted 99
        totalLatency := c.totalLatencySum }
    else
      { method := "AGGREGATED"
        count := c.totalCount
        errorCount := c.totalErrorCount
        errorRate := errorRate
        avgLatency := avgLatency
        totalLatency := c.totalLatencySum }

/-- C9: `GetStats` is a read-only snapshot — the metrics state after the
call is the receiver unchanged, so two consecutive calls with no
intervening ingestion return identical `Stats` values. -/
theorem getStats_snapshot_idempotent (m : Metrics) :
    (m.GetStats).2 = m ∧ ((m.GetStats).2.GetStats).1 = (m.GetStats).1 := by
  have h : (m.GetStats).2 = m := by
    simp only [Metrics.GetStats]
    split_ifs <;> rfl
  exact ⟨h, by rw [h]⟩

/-- C10: when at least one record was ingested and every record failed,
`GetAggregatedStats` computes its average latency by dividing by the zero
success count (yielding the non-finite float, `none`), with no all-failed
guard; the per-kind `GetStats` in the same state instead takes its guard
branch and returns a zero-stats record with `errorRate = 100`. -/
theorem aggregated_all_failed_divides_by_zero (c : Collector)
    (h0 : 0 < c.totalCount) (hall : c.totalErrorCount = c.totalCount) :
    (c.GetAggregatedStats).avgLatency = fdiv c.totalLatencySum 0
  ∧ (c.GetAggregatedStats).avgLatency = none
  ∧ (c.GetAggregatedStats).errorRate = 100
  ∧ ∀ p ∈ c.metrics, 0 < p.2.count → p.2.errorCount = p.2.count →
      (p.2.GetStats).1
        = { method := p.2.method, count := p.2.count,
            errorCount := p.2.errorCount, errorRate := 100 } := by
  have hsz : ((c.totalCount - c.totalErrorCount : Int) : ℚ) = 0 := by
    rw [hall]; push_cast; ring
  have hne : (c.totalCount : ℚ) ≠ 0 := by
    exact_mod_cast (by omega : c.totalCount ≠ 0)
  have havg : (c.GetAggregatedStats).avgLatency = none := by
    simp only [Collector.GetAggregatedStats]
    rw [if_neg (by omega)]
    split_ifs <;> simp [hsz, fdiv]
  refine ⟨?_, havg, ?_, ?_⟩
  · rw [havg]; simp [fdiv]
  · simp only [Collector.GetAggregatedStats]
    rw [if_neg (by omega)]
    have herr : (c.totalErrorCount : ℚ) / (c.totalCount : ℚ) * 100 = 100 := by
      rw [hall, div_self hne, one_mul]
    split_ifs <;> simpa using herr
  · intro p _ hp0 hpall
    simp only [Metrics.GetStats]
    rw [if_neg (by omega), if_pos (by omega)]

/-- C10 witness: a collector holding one method whose single ingested
record failed. -/
theorem aggregated_all_failed_divides_by_zero_witness :
    ((⟨[("Get", (NewMetrics "Get").AddResult ⟨"Get", 0, true⟩)]⟩ : Collector).GetAggregatedStats).avgLatency
        = fdiv (⟨[("Get", (NewMetrics "Get").AddResult ⟨"Get", 0, true⟩)]⟩ : Collector).totalLatencySum 0
    ∧ ((⟨[("Get", (NewMetrics "Get").AddResult ⟨"Get", 0, true⟩)]⟩ : Collector).GetAggregatedStats).avgLatency
        = none
    ∧ ((⟨[("Get", (NewMetrics "Get").AddResult ⟨"Get", 0, true⟩)]⟩ : Collector).GetAggregatedStats).errorRate
        = 100 := by
  have h := aggregated_all_failed_divides_by_zero
    (⟨[("Get", (NewMetrics "Get").AddResult ⟨"Get", 0, true⟩)]⟩ : Collector)
    (by decide) (by decide)
  exact ⟨h.1, h.2.1, h.2.2.1⟩

/-- Latency recorded by performOperation (runner.go, performOperation):
`latency := time.Since(start).Milliseconds()` divides the elapsed
nanoseconds by 10^6 with integer truncation, and `float64(latency)` stores
that whole number into the `LatencyMs` field. -/
def recordedLatencyMs (elapsedNs : Nat) : ℚ :=
  ((elapsedNs / 1000000 : Nat) : ℚ)

/-- Modelled from the spec: the elapsed time in fractional milliseconds,
as the spec describes the ResultRecord latency field. -/
def fractionalLatencyMs (elapsedNs : Nat) : ℚ :=
  (elapsedNs : ℚ) / 1000000

/-- C2 counterexample: at an elapsed time of 1.5 ms (1500000 ns) the
recorded latency is the truncated 1, not the fractional 1.5 that the claim
requires, so sub-millisecond precision is lost. -/
theorem latency_truncated_to_whole_ms :
    recordedLatencyMs 1500000 = 1
  ∧ fractionalLatencyMs 1500000 = 3 / 2
  ∧ recordedLatencyMs 1500000 ≠ fractionalLatencyMs 1500000 := by
  refine ⟨?_, ?_, ?_⟩ <;> norm_num [recordedLatencyMs, fractionalLatencyMs]

/-- Environment-determined outcome of one worker operation: the selected
method name, the elapsed time of the RPC in nanoseconds, and whether the
RPC returned a non-nil error (runner.go, performOperation). -/
structure OpOutcome where
  method : String
  elapsedNs : Nat
  isError : Bool
  deriving Repr, DecidableEq

/-- Result record built by performOperation (runner.go, performOperation,
result construction). -/
def performOperationRecord (o : OpOutcome) : BenchmarkResult :=
  { method := o.method
    latencyMs := recordedLatencyMs o.elapsedNs
    isError := o.isError }

/-- Effect of one performOperation call on the collector state (runner.go:
the result is submitted only when `!isWarmup`).  Submission and the serial
ingestion loop are collapsed into `processResult`; no claim proved against
this definition involves queue overflow. -/
def performOperation (c : Collector) (isWarmup : Bool) (o : OpOutcome) : Collector :=
  if !isWarmup then c.processResult (performOperationRecord o) else c

/-- Worker request loop over a phase: one performOperation per iteration
(runner.go, worker). -/
def runWorkerLoop (c : Collector) (isWarmup : Bool) (os : List OpOutcome) : Collector :=
  os.foldl (fun acc o => performOperation acc isWarmup o) c

/-- C8: a warm-up worker loop never submits, so the collector state is
unchanged by any sequence of warm-up operations, while a measuring-phase
operation forwards its result record to the collector's ingestion path. -/
theorem warmup_discards_results :
    (∀ (c : Collector) (os : List OpOutcome), runWorkerLoop c true os = c)
  ∧ (∀ (c : Collector) (o : OpOutcome),
      performOperation c false o = c.processResult (performOperationRecord o)) := by
  constructor
  · intro c os
    induction os generalizing c with
    | nil => rfl
    | cons o os ih =>
      have h1 : performOperation c true o = c := rfl
      calc runWorkerLoop c true (o :: os)
          = runWorkerLoop (performOperation c true o) true os := rfl
        _ = c := by rw [h1]; exact ih c
  · intro c o
    rfl

/-- Wall-clock instants (seconds) relevant to progress reporting:
`startTime` is recorded once in NewBenchmarkRunner and never reset; the
Measuring phase begins strictly later, after the health check and the
warm-up phase (runner.go, Run). -/
structure RunnerClock where
  startTime : ℚ
  measuringStart : ℚ
  deriving Repr, DecidableEq

/-- RPS figure computed by printProgress (runner.go, printProgress):
`float64(stats.Count) / time.Since(r.startTime).Seconds()` — the elapsed
time is measured from runner construction. -/
def printProgressRPS (r : RunnerClock) (count : Int) (now : ℚ) : Option ℚ :=
  fdiv (count : ℚ) (now - r.startTime)

/-- Modelled from the spec: RPS as the cumulative measured count divided by
the elapsed time since the Measuring phase began. -/
def specProgressRPS (r : RunnerClock) (count : Int) (now : ℚ) : Option ℚ :=
  fdiv (count : ℚ) (now - r.measuringStart)

/-- C3 counterexample: runner constructed at t = 0 s, Measuring begins at
t = 5 s after a 5 s warm-up, progress tick at t = 10 s with 15000 measured
operations.  The code prints 1500 (count over time since construction)
where the claim — matching the README's sample output — requires 3000. -/
theorem progress_rps_measured_from_construction :
    printProgressRPS ⟨0, 5⟩ 15000 10 = some 1500
  ∧ specProgressRPS ⟨0, 5⟩ 15000 10 = some 3000
  ∧ printProgressRPS ⟨0, 5⟩ 15000 10 ≠ specProgressRPS ⟨0, 5⟩ 15000 10 := by
  refine ⟨?_, ?_, ?_⟩ <;> norm_num [printProgressRPS, specProgressRPS, fdiv]

/-- Outcome of NewConnectionPool (client.go:82-101): either a pool holding
the opened clients, identified by their indices, or a construction failure
carrying the failing connection's index (the Go error message is
"failed to create client %d") together with the list of previously opened
connections that were closed before returning. -/
inductive PoolOutcome where
  | pool (clients : List Nat)
  | connectError (failedIndex : Nat) (closed : List Nat)
  deriving Repr, DecidableEq

/-- Loop of NewConnectionPool (client.go:85-95); `dial i` abstracts whether
the i-th `NewClient` call succeeds. -/
def newConnectionPoolLoop (dial : Nat → Bool) (numConnections i : Nat)
    (clients : List Nat) : PoolOutcome :=
  if i < numConnections then
    if dial i then newConnectionPoolLoop dial numConnections (i + 1) (clients ++ [i])
    else .connectError i clients
  else .pool clients
termination_by numConnections - i
decreasing_by omega

/-- NewConnectionPool (client.go:82-101). -/
def NewConnectionPool (dial : Nat → Bool) (numConnections : Nat) : PoolOutcome :=
  newConnectionPoolLoop dial numConnections 0 []

theorem newConnectionPoolLoop_fail (dial : Nat → Bool) (n k : Nat)
    (hk : k < n) (hdial : ∀ j, j < k → dial j = true) (hfail : dial k = false) :
    ∀ (d i : Nat), i ≤ k → k - i = d →
      newConnectionPoolLoop dial n i (List.range i)
        = .connectError k (List.range k) := by
  intro d
  induction d with
  | zero =>
    intro i hik hd
    have hik' : i = k := by omega
    subst hik'
    rw [newConnectionPoolLoop, if_pos hk, hfail]
    rfl
  | succ d ih =>
    intro i hik hd
    have hlt : i < k := by omega
    rw [newConnectionPoolLoop, if_pos (by omega : i < n), hdial i hlt]
    simp only [if_true]
    rw [← List.range_succ]
    exact ih (i + 1) (by omega) (by omega)

/-- C7: connection pool construction is all-or-nothing — if the first `k`
dials succeed and dial `k < n` fails, construction returns no pool but a
connect error naming connection `k`, with exactly the previously opened
connections `0..k-1` closed before returning. -/
theorem pool_construction_all_or_nothing (dial : Nat → Bool) (n k : Nat)
    (hk : k < n) (hdial : ∀ j, j < k → dial j = true) (hfail : dial k = false) :
    NewConnectionPool dial n = .connectError k (List.range k) := by
  have h := newConnectionPoolLoop_fail dial n k hk hdial hfail k 0
    (Nat.zero_le k) (by omega)
  simpa [NewConnectionPool, List.range_zero] using h

/-- Dial environment in which only connection 0 can be opened. -/
def dialOnlyFirst : Nat → Bool := fun j => j == 0

/-- C7 witness: opening a pool of 2 when connection 1 fails closes the
previously opened connection 0 and surfaces an error naming connection 1. -/
theorem pool_construction_all_or_nothing_witness :
    NewConnectionPool dialOnlyFirst 2 = .connectError 1 (List.range 1) :=
  pool_construction_all_or_nothing dialOnlyFirst 2 1 (by decide)
    (by decide) (by decide)

/-- One data row of the aggregated CSV (collector.go:416-430 and 438-452),
with the numeric fields kept as numbers; decimal string formatting is
outside the model. -/
structure CsvRow where
  method : String
  totalOps : Int
  successOps : Int
  errorOps : Int
  errorRatePct : ℚ
  avgLatencyMs : Option ℚ
  p50LatencyMs : ℚ
  p95LatencyMs : ℚ
  p99LatencyMs : ℚ
  minLatencyMs : ℚ
  maxLatencyMs : ℚ
  throughputOpsPerSec : ℚ
  deriving Repr, DecidableEq

/-- WriteAggregatedMetricsToCSV (collector.go:392-454): the data rows of
the single write performed at finalize when a CSV path is configured, at
wall-clock instant `now` (seconds).  Per-method rows divide the success
count by the time elapsed since `metrics.StartTime` when that is positive;
the AGGREGATED row's throughput is
`float64(aggregated.Count - aggregated.ErrorCount)` — the bare success
count, despite the inline "ops per second" comment (collector.go:436). -/
def Collector.WriteAggregatedMetricsToCSV (c : Collector) (now : ℚ) : List CsvRow :=
  let perMethod := c.metrics.filterMap fun p =>
    let stats := (p.2.GetStats).1
    if stats.count = 0 then none
    else
      let elapsedTime := now - p.2.startTime
      let throughput :=
        if 0 < elapsedTime then ((stats.count - stats.errorCount : Int) : ℚ) / elapsedTime
        else 0
      some { method := stats.method
             totalOps := stats.count
             successOps := stats.count - stats.errorCount
             errorOps := stats.errorCount
             errorRatePct := stats.errorRate
             avgLatencyMs := stats.avgLatency
             p50LatencyMs := stats.p50Latency
             p95LatencyMs := stats.p95Latency
             p99LatencyMs := stats.p99Latency
             minLatencyMs := stats.minLatency
             maxLatencyMs := stats.maxLatency
             throughputOpsPerSec := throughput }
  let aggregated := c.GetAggregatedStats
  let aggRows :=
    if 0 < aggregated.count then
      [{ method := "AGGREGATED"
         totalOps := aggregated.count
         successOps := aggregated.count - aggregated.errorCount
         errorOps := aggregated.errorCount
         errorRatePct := aggregated.errorRate
         avgLatencyMs := aggregated.avgLatency
         p50LatencyMs := aggregated.p50Latency
         p95LatencyMs := aggregated.p95Latency
         p99LatencyMs := aggregated.p99Latency
         minLatencyMs := aggregated.minLatency
         maxLatencyMs := aggregated.maxLatency
         throughputOpsPerSec := ((aggregated.count - aggregated.errorCount : Int) : ℚ) }]
    else []
  perMethod ++ aggRows

/-- Metrics state after one successful Get of latency 1 ms. -/
def csvDemoMetrics : Metrics :=
  { method := "Get", count := 1, errorCount := 0, totalLatency := 1,
    minLatency := 1, maxLatency := 1, latencies := [1],
    maxLatencies := 10000, startTime := 0 }

/-- Collector state after one successful Get of latency 1 ms, used to
evaluate the CSV export. -/
def csvDemoCollector : Collector :=
  ⟨[("Get", (NewMetrics "Get").AddResult ⟨"Get", 1, false⟩)]⟩

/-- C4 counterexample: finalize at t = 2 s for a run with one successful
operation that started at t = 0.  The write produces one row per observed
kind plus the AGGREGATED row, and the per-method throughput is the rate
1/2 ops/s, but the AGGREGATED row's throughput field is the bare success
count 1, not total_count / total_elapsed_seconds = 1/2. -/
theorem csv_aggregated_throughput_is_bare_count :
    (csvDemoCollector.WriteAggregatedMetricsToCSV 2).map CsvRow.method
        = ["Get", "AGGREGATED"]
  ∧ (csvDemoCollector.WriteAggregatedMetricsToCSV 2).map CsvRow.throughputOpsPerSec
        = [1 / 2, 1]
  ∧ ((csvDemoCollector.GetAggregatedStats).count : ℚ) / 2 = 1 / 2
  ∧ (1 : ℚ) ≠ 1 / 2 := by
  have hm : (NewMetrics "Get").AddResult ⟨"Get", 1, false⟩ = csvDemoMetrics := by
    norm_num [Metrics.AddResult, NewMetrics, csvDemoMetrics]
  have hc : csvDemoCollector = ⟨[("Get", csvDemoMetrics)]⟩ := by
    rw [csvDemoCollector, hm]
  have hstats : (csvDemoMetrics.GetStats).1
      = { method := "Get", count := 1, errorCount := 0, errorRate := 0,
          avgLatency := some 1, minLatency := 1, maxLatency := 1,
          p50Latency := 1, p95Latency := 1, p99Latency := 1 } := by
    norm_num [Metrics.GetStats, csvDemoMetrics, percentile, truncToInt,
      List.insertionSort, List.orderedInsert]
  have hagg : csvDemoCollector.GetAggregatedStats
      = { method := "AGGREGATED", count := 1, errorCount := 0, errorRate := 0,
          avgLatency := some 1, minLatency := 1, maxLatency := 1,
          p50Latency := 1, p95Latency := 1, p99Latency := 1, totalLatency := 1 } := by
    rw [hc]
    norm_num [Collector.GetAggregatedStats, Collector.totalCount,
      Collector.totalErrorCount, Collector.totalLatencySum,
      Collector.allLatencies, csvDemoMetrics, fdiv, percentile, truncToInt,
      List.insertionSort, List.orderedInsert]
  have hrows : csvDemoCollector.WriteAggregatedMetricsToCSV 2
      = [{ method := "Get", totalOps := 1, successOps := 1, errorOps := 0,
           errorRatePct := 0, avgLatencyMs := some 1, p50LatencyMs := 1,
           p95LatencyMs := 1, p99LatencyMs := 1, minLatencyMs := 1,
           maxLatencyMs := 1, throughputOpsPerSec := 1 / 2 },
         { method := "AGGREGATED", totalOps := 1, successOps := 1, errorOps := 0,
           errorRatePct := 0, avgLatencyMs := some 1, p50LatencyMs := 1,
           p95LatencyMs := 1, p99LatencyMs := 1, minLatencyMs := 1,
           maxLatencyMs := 1, throughputOpsPerSec := 1 }] := by
    simp only [Collector.WriteAggregatedMetricsToCSV, hagg]
    rw [hc]
    simp only [List.filterMap_cons, List.filterMap_nil]
    norm_num [hstats, show csvDemoMetrics.startTime = 0 from rfl]
  refine ⟨?_, ?_, ?_, by norm_num⟩
  · rw [hrows]; rfl
  · rw [hrows]; rfl
  · rw [hagg]; norm_num

end KVBench
